import Mathlib

/-!
Verification development for the jaeger-ui front-end (trace visualization
single-page application).  The repository ships the test suites of the
VerticalResizer, TraceTimelineViewer and DeepDependencies Header components
together with the DDG store-entry type; the component implementations
themselves are not part of the sources, so they are modelled here from the
specification (sections 4.1 to 4.4, 7 and 8), while the DDG state-entry type
is embedded directly from its TypeScript source.

Positions and pointer coordinates are modelled as rationals; JavaScript Sets
are modelled as insertion-ordered lists; callback identity is modelled as a
natural number tag.
-/

/-! ## VerticalResizer: bounds computation -/

/-- Modelled from the spec: the bounding rectangle of the container element of
the resizer (section 4.3 converts raw pointer coordinates "via the bounding
rectangle of its container"); only the left coordinate and the width are
consumed. -/
structure Rect where
  left : ℚ
  width : ℚ
deriving DecidableEq

/-- Modelled from the spec: the props of the VerticalResizer component, a
bounded [min, max] position value and the optional rightSide anchoring flag
(section 4.3). -/
structure ResizerProps where
  min : ℚ
  max : ℚ
  position : ℚ
  rightSide : Bool
deriving DecidableEq

/-- Modelled from the spec: the draggable bounds handed to the drag manager,
with the [minValue, maxValue] interval optionally flipped by the axis flip of
section 4.3. -/
structure DraggableBounds where
  clientXLeft : ℚ
  width : ℚ
  minValue : ℚ
  maxValue : ℚ
deriving DecidableEq

/-- Modelled from the spec: VerticalResizer getDraggingBounds.  Throws an
error if a drag begins before the container has mounted, i.e. when no root
element and hence no bounding rectangle is available (sections 4.3 and 7);
otherwise it reads left and width from the bounding rectangle and flips the
configured [min, max] interval when anchored to the right side. -/
def getDraggingBounds (p : ResizerProps) (rootElm : Option Rect) :
    Except String DraggableBounds :=
  match rootElm with
  | none => Except.error "invalid state"
  | some r =>
      Except.ok
        { clientXLeft := r.left
          width := r.width
          minValue := if p.rightSide then 1 - p.max else p.min
          maxValue := if p.rightSide then 1 - p.min else p.max }

/-! ## VerticalResizer: drag lifecycle -/

/-- Modelled from the spec: the position the resizer reports for a raw drag
value, flipping the axis when anchored to the right side ("Dragging a resizer
with rightSide set transforms reported position p to 1-p on both update and
commit", section 8). -/
def reportedPosition (rightSide : Bool) (v : ℚ) : ℚ :=
  if rightSide then 1 - v else v

/-- Modelled from the spec: the pointer-drag events delivered to the resizer
by its drag manager, plus component unmount (sections 4.3 and 5). -/
inductive ResizerEvent where
  | dragUpdate (v : ℚ)
  | dragEnd (v : ℚ)
  | unmount
deriving DecidableEq

/-- Modelled from the spec: the observable state of one resizer instance: the
local-only dragPosition render state, and the logs of the side effects it has
performed (onChange invocations, drag-manager bounds resets, drag-manager
disposals). -/
structure ResizerState where
  dragPosition : Option ℚ
  onChangeCalls : List ℚ
  resetBoundsCalls : Nat
  disposeCalls : Nat
deriving DecidableEq

/-- Modelled from the spec: a freshly mounted resizer: no drag position and no
side effects performed yet. -/
def initialResizerState : ResizerState :=
  { dragPosition := none
    onChangeCalls := []
    resetBoundsCalls := 0
    disposeCalls := 0 }

/-- Modelled from the spec: one step of the resizer: a drag update stores the
reported position in local state only; a drag end resets the manager bounds,
clears the local state and emits the final reported position through onChange
("Emits the final position only on drag release; intermediate positions are
local-only render state", section 4.3); unmount disposes the drag manager
("a component unmount detaches listeners (e.g., disposes the drag manager)",
section 5). -/
def stepResizer (rightSide : Bool) (s : ResizerState) : ResizerEvent → ResizerState
  | ResizerEvent.dragUpdate v =>
      { s with dragPosition := some (reportedPosition rightSide v) }
  | ResizerEvent.dragEnd v =>
      { s with
          dragPosition := none
          onChangeCalls := s.onChangeCalls ++ [reportedPosition rightSide v]
          resetBoundsCalls := s.resetBoundsCalls + 1 }
  | ResizerEvent.unmount =>
      { s with disposeCalls := s.disposeCalls + 1 }

/-- Modelled from the spec: running a resizer through a sequence of events. -/
def runResizer (rightSide : Bool) (s : ResizerState) (evts : List ResizerEvent) :
    ResizerState :=
  List.foldl (stepResizer rightSide) s evts

/-- Recognizer for the unmount event. -/
def isUnmountEvent : ResizerEvent → Bool
  | ResizerEvent.unmount => true
  | _ => false

/-! ## DDG store entry (embedded from the TypeScript source) -/

/-- Fetch status constants referenced by the state-entry union (the constants
module is not among the sources; the union tags are what matters here). -/
inductive FetchedState where
  | LOADING
  | ERROR
  | DONE
deriving DecidableEq

/-- Modelled from the spec: a typed API error carrying a status code and a
message ("an ERROR state entry carrying a typed API error (status code,
message)", section 7); the api-error module is not among the sources. -/
structure ApiError where
  httpStatus : Nat
  message : String
deriving DecidableEq

/-- Modelled from the spec: the built DDG model carried by a DONE entry: nodes
identified by a (service, operation) pair each carrying a signed hop distance
(section 3); the model module is not among the sources and only its presence
matters for the state-entry shape. -/
structure TDdgModel where
  nodes : List (String × String × Int)
deriving DecidableEq

/-- Embedded from the source (TDdgStateEntry): a tagged union over LOADING,
ERROR and DONE; the ERROR variant carries an ApiError, the DONE variant
carries a model and a viewModifiers map from node identity (a number) to a
numeric modifier, and the LOADING variant carries nothing else. -/
inductive TDdgStateEntry where
  | loading : TDdgStateEntry
  | error (error : ApiError) : TDdgStateEntry
  | done (model : TDdgModel) (viewModifiers : List (Nat × Nat)) : TDdgStateEntry

/-- Embedded from the source: the state discriminant of a TDdgStateEntry. -/
def TDdgStateEntry.state : TDdgStateEntry → FetchedState
  | TDdgStateEntry.loading => FetchedState.LOADING
  | TDdgStateEntry.error _ => FetchedState.ERROR
  | TDdgStateEntry.done _ _ => FetchedState.DONE

/-! ## DeepDependencies Header: match-info control -/

/-- Modelled from the spec: Array.from applied to a JavaScript Set; the Set is
modelled as its insertion-ordered list of elements, so the conversion to array
form returns exactly that list. -/
def arrayFrom (s : List String) : List String := s

/-- Modelled from the spec: the Header props the match-info control consumes:
the visible match count (absent when there is no search) and the set of
hidden match vertices (absent or possibly empty), section 4.2. -/
structure HeaderProps where
  uiFindCount : Option Nat
  hiddenUiFindMatches : Option (List String)
deriving DecidableEq

/-- Modelled from the spec: the match-info control is disabled exactly when
the hidden match set is absent or empty. -/
def uiFindInfoDisabled (p : HeaderProps) : Bool :=
  match p.hiddenUiFindMatches with
  | none => true
  | some h => h.isEmpty

/-- Modelled from the spec: the rendered appearance of the match-info control:
whether it is rendered at all, whether it is disabled, the visible-count text
it displays, and how many visibility icons it shows. -/
structure MatchInfoView where
  present : Bool
  disabled : Bool
  countText : String
  iconCount : Nat
deriving DecidableEq

/-- Modelled from the spec: rendering of the match-info control.  It is absent
when the count is undefined; otherwise it displays the visible count, is
disabled when no hidden matches exist, and shows both visibility icons when
hidden matches exist, one when only visible matches exist, and none when
there are neither (section 4.2 and section 8). -/
def renderUiFindInfo (p : HeaderProps) : MatchInfoView :=
  match p.uiFindCount with
  | none =>
      { present := false, disabled := true, countText := "", iconCount := 0 }
  | some n =>
      { present := true
        disabled := uiFindInfoDisabled p
        countText := toString n
        iconCount :=
          if (p.hiddenUiFindMatches.getD []).isEmpty then (if n = 0 then 0 else 1)
          else 2 }

/-- Modelled from the spec: clicking the match-info control.  Returns the list
of showVertices invocations the click performs: none while the control is
disabled (hidden set absent or empty), and exactly one call carrying the
hidden set in array form otherwise ("clicking the match-info control invokes
the reveal callback with exactly the hidden set, in array form", section 8). -/
def clickMatchInfo (p : HeaderProps) : List (List String) :=
  if uiFindInfoDisabled p then []
  else [arrayFrom (p.hiddenUiFindMatches.getD [])]

/-! ## TraceTimelineViewer: keyboard shortcut registration -/

/-- Modelled from the spec: the four callback props of the trace timeline
viewer whose identities drive shortcut registration (section 4.4); each
callback is represented by its identity tag. -/
structure TimelineCallbacks where
  collapseAll : Nat
  expandAll : Nat
  collapseOne : Nat
  expandOne : Nat
deriving DecidableEq

/-- Modelled from the spec: mounting the timeline viewer merges keyboard
shortcuts once, with exactly the four callbacks (section 4.4); the returned
list holds one entry per KeyboardShortcuts.merge call. -/
def mergeCallsOnMount (cb : TimelineCallbacks) : List TimelineCallbacks := [cb]

/-- Modelled from the spec: a re-render re-registers the shortcuts exactly
when one of the four callback props changed identity ("re-registers them
whenever the callback props change identity", section 4.4). -/
def mergeCallsOnUpdate (oldCb newCb : TimelineCallbacks) : List TimelineCallbacks :=
  if newCb = oldCb then [] else [newCb]

/-! ## Dependency graph builder -/

/-- A node of the dependency graph is identified by a (service, operation)
pair (section 3). -/
abbrev SvcOp := String × String

/-- Modelled from the spec: the built dependency graph: a node set carrying
signed hop distances (negative upstream, positive downstream) and an edge
set (section 4.1). -/
structure DdgGraph where
  nodes : List (SvcOp × Int)
  edges : List (SvcOp × SvcOp)
deriving DecidableEq

/-- Modelled from the spec: downstream neighbors of a node in the input edge
set. -/
def succOf (edges : List (SvcOp × SvcOp)) (v : SvcOp) : List SvcOp :=
  (edges.filter (fun e => decide (e.1 = v))).map (fun e => e.2)

/-- Modelled from the spec: upstream neighbors of a node in the input edge
set. -/
def predOf (edges : List (SvcOp × SvcOp)) (v : SvcOp) : List SvcOp :=
  (edges.filter (fun e => decide (e.2 = v))).map (fun e => e.1)

/-- Modelled from the spec: the next breadth-first frontier: neighbors of the
current frontier not yet visited, deduplicated so that each node is discovered
once, at its first-discovery (shortest) depth. -/
def bfsNext (adj : SvcOp → List SvcOp) (visited frontier : List SvcOp) : List SvcOp :=
  ((frontier.flatMap adj).filter (fun v => decide (v ∉ visited))).dedup

/-- Modelled from the spec: breadth-first traversal bounded by the remaining
fuel; returns the newly discovered nodes paired with the depth at which each
was discovered (the depth of the frontier is d). -/
def bfsGo (adj : SvcOp → List SvcOp) :
    Nat → List SvcOp → List SvcOp → Nat → List (SvcOp × Nat)
  | 0, _, _, _ => []
  | fuel + 1, visited, frontier, d =>
      (bfsNext adj visited frontier).map (fun v => (v, d + 1)) ++
        bfsGo adj fuel (visited ++ bfsNext adj visited frontier)
          (bfsNext adj visited frontier) (d + 1)

/-- Modelled from the spec: all nodes reachable from the focal node within n
hops along adj, paired with their breadth-first discovery depth. -/
def bfsDepths (adj : SvcOp → List SvcOp) (focal : SvcOp) (n : Nat) :
    List (SvcOp × Nat) :=
  (focal, 0) :: bfsGo adj n [focal] [focal] 0

/-- Modelled from the spec: whether the focal node has any edge at all; when
it has none the builder fails gracefully with an empty graph (section 4.1). -/
def focalHasEdges (edges : List (SvcOp × SvcOp)) (focal : SvcOp) : Bool :=
  !(succOf edges focal).isEmpty || !(predOf edges focal).isEmpty

/-- Modelled from the spec: the node set of the built graph: downstream nodes
within n hops carry their positive depth, upstream nodes within n hops carry
their negated depth, and the focal node itself carries distance 0 (listed
once, with the downstream traversal). -/
def ddgNodes (edges : List (SvcOp × SvcOp)) (focal : SvcOp) (n : Nat) :
    List (SvcOp × Int) :=
  (bfsDepths (succOf edges) focal n).map (fun p => (p.1, (p.2 : Int))) ++
    ((bfsDepths (predOf edges) focal n).filter (fun p => decide (p.2 ≠ 0))).map
      (fun p => (p.1, -(p.2 : Int)))

/-- Modelled from the spec: the dependency graph builder (section 4.1): given
the input edge set, a focal (service, operation) and a maximum hop count n, it
keeps the nodes discovered breadth-first within n hops upstream or downstream
and only the input edges whose two endpoints both survived ("Edges outside the
hop bound are excluded"); when the focal node has no edges it returns the
empty graph. -/
def buildDdg (edges : List (SvcOp × SvcOp)) (focal : SvcOp) (n : Nat) : DdgGraph :=
  if focalHasEdges edges focal then
    { nodes := ddgNodes edges focal n
      edges := edges.filter (fun e =>
          decide (e.1 ∈ (ddgNodes edges focal n).map Prod.fst) &&
          decide (e.2 ∈ (ddgNodes edges focal n).map Prod.fst)) }
  else { nodes := [], edges := [] }

/-! ## Helper lemmas -/

/-- Depths produced by the bounded breadth-first traversal exceed the frontier
depth by at most the remaining fuel. -/
theorem bfsGo_depth_le (adj : SvcOp → List SvcOp) (fuel : Nat) :
    ∀ (visited frontier : List SvcOp) (d : Nat) (p : SvcOp × Nat),
      p ∈ bfsGo adj fuel visited frontier d → p.2 ≤ d + fuel := by
  induction fuel with
  | zero =>
      intro visited frontier d p hp
      simp [bfsGo] at hp
  | succ k ih =>
      intro visited frontier d p hp
      simp only [bfsGo, List.mem_append] at hp
      rcases hp with hp | hp
      · rcases List.mem_map.mp hp with ⟨v, hv, rfl⟩
        show d + 1 ≤ d + (k + 1)
        omega
      · have h2 := ih _ _ _ p hp
        omega

/-- Every node discovered within n hops of the focal node is recorded with a
depth of at most n. -/
theorem bfsDepths_depth_le (adj : SvcOp → List SvcOp) (focal : SvcOp) (n : Nat) :
    ∀ p ∈ bfsDepths adj focal n, p.2 ≤ n := by
  intro p hp
  rcases List.mem_cons.mp hp with h | h
  · subst h
    exact Nat.zero_le n
  · have h2 := bfsGo_depth_le adj n [focal] [focal] 0 p h
    omega

/-- Every node the builder keeps carries an absolute hop distance of at most
the hop bound. -/
theorem ddgNodes_hop_le (edges : List (SvcOp × SvcOp)) (focal : SvcOp) (n : Nat) :
    ∀ q ∈ ddgNodes edges focal n, q.2.natAbs ≤ n := by
  intro q hq
  rcases List.mem_append.mp hq with h | h
  · rcases List.mem_map.mp h with ⟨p, hp, rfl⟩
    have h2 := bfsDepths_depth_le (succOf edges) focal n p hp
    simpa using h2
  · rcases List.mem_map.mp h with ⟨p, hp, rfl⟩
    have h2 := bfsDepths_depth_le (predOf edges) focal n p (List.mem_of_mem_filter hp)
    simpa using h2

/-- Drag updates alone never touch the onChange log or the bounds-reset
counter of a resizer. -/
theorem runResizer_dragUpdates (rs : Bool) (vs : List ℚ) :
    ∀ s : ResizerState,
      (runResizer rs s (vs.map ResizerEvent.dragUpdate)).onChangeCalls
          = s.onChangeCalls ∧
      (runResizer rs s (vs.map ResizerEvent.dragUpdate)).resetBoundsCalls
          = s.resetBoundsCalls := by
  induction vs with
  | nil => intro s; exact ⟨rfl, rfl⟩
  | cons v t ih =>
      intro s
      have h := ih (stepResizer rs s (ResizerEvent.dragUpdate v))
      exact ⟨h.1, h.2⟩

/-- A run of the resizer performs one drag-manager disposal per unmount event
and no disposal from any other event. -/
theorem runResizer_disposeCalls (rs : Bool) (ops : List ResizerEvent) :
    ∀ s : ResizerState,
      (runResizer rs s ops).disposeCalls
        = s.disposeCalls + List.countP isUnmountEvent ops := by
  induction ops with
  | nil => intro s; simp [runResizer]
  | cons e t ih =>
      intro s
      have h := ih (stepResizer rs s e)
      rw [List.countP_cons]
      show (runResizer rs (stepResizer rs s e) t).disposeCalls = _
      rw [h]
      cases e <;> simp [stepResizer, isUnmountEvent] <;> omega

/-! ## Claim theorems -/

/-- Claim C1: for every drag value v delivered while rightSide is set, the
resizer reports 1 - v both in the intermediate drag update (stored as the
local dragPosition) and in the drag-end commit (passed to onChange); with
rightSide unset both surfaces report v unchanged. -/
theorem C1_rightSide_flip (s : ResizerState) (v : ℚ) :
    (stepResizer true s (ResizerEvent.dragUpdate v)).dragPosition = some (1 - v) ∧
    (stepResizer true s (ResizerEvent.dragEnd v)).onChangeCalls
        = s.onChangeCalls ++ [1 - v] ∧
    (stepResizer false s (ResizerEvent.dragUpdate v)).dragPosition = some v ∧
    (stepResizer false s (ResizerEvent.dragEnd v)).onChangeCalls
        = s.onChangeCalls ++ [v] := by
  refine ⟨?_, ?_, ?_, ?_⟩ <;> simp [stepResizer, reportedPosition]

/-- Claim C2: in the graph produced by the dependency graph builder for any
input edge set, focal node and hop bound n, every node has absolute hop
distance at most n, and every surviving edge connects two such nodes, so no
edge outside the hop bound appears in the output. -/
theorem C2_hop_bound (edges : List (SvcOp × SvcOp)) (focal : SvcOp) (n : Nat) :
    (∀ q ∈ (buildDdg edges focal n).nodes, q.2.natAbs ≤ n) ∧
    (∀ e ∈ (buildDdg edges focal n).edges,
        e.1 ∈ ((buildDdg edges focal n).nodes.map Prod.fst) ∧
        e.2 ∈ ((buildDdg edges focal n).nodes.map Prod.fst)) := by
  cases hfe : focalHasEdges edges focal with
  | false => simp [buildDdg, hfe]
  | true =>
      simp only [buildDdg, hfe, if_true]
      constructor
      · intro q hq
        exact ddgNodes_hop_le edges focal n q hq
      · intro e he
        have hmem := List.mem_filter.mp he
        have hand := hmem.2
        rw [Bool.and_eq_true, decide_eq_true_eq, decide_eq_true_eq] at hand
        exact hand

/-- Claim C3: every DDG state entry has state exactly one of LOADING, ERROR
or DONE; an entry is in the DONE state precisely when it is built from a
model and a viewModifiers map, in the ERROR state precisely when it carries a
typed API error, and in the LOADING state precisely when it carries nothing
else, so no other combination of fields is representable. -/
theorem C3_state_entry_shape (e : TDdgStateEntry) :
    (e.state = FetchedState.LOADING ∨ e.state = FetchedState.ERROR ∨
        e.state = FetchedState.DONE) ∧
    (e.state = FetchedState.DONE ↔ ∃ m vm, e = TDdgStateEntry.done m vm) ∧
    (e.state = FetchedState.ERROR ↔ ∃ err, e = TDdgStateEntry.error err) ∧
    (e.state = FetchedState.LOADING ↔ e = TDdgStateEntry.loading) := by
  cases e <;> simp [TDdgStateEntry.state]

/-- Claim C4: the bounds computation of the resizer throws the invalid-state
error when no container element is mounted, and never throws once a bounding
rectangle is available. -/
theorem C4_throws_before_mount (p : ResizerProps) :
    getDraggingBounds p none = Except.error "invalid state" ∧
    ∀ r : Rect, ∃ b, getDraggingBounds p (some r) = Except.ok b := by
  refine ⟨rfl, ?_⟩
  intro r
  exact ⟨_, rfl⟩

/-- Claim C5: for every sequence of drag updates followed by one drag end,
the resizer invokes onChange exactly once, with the final reported position,
and only on the drag end: the updates alone leave the onChange log empty, and
the drag end clears the local dragPosition and resets the manager bounds. -/
theorem C5_commit_once (rs : Bool) (vs : List ℚ) (v : ℚ) :
    (runResizer rs initialResizerState (vs.map ResizerEvent.dragUpdate)).onChangeCalls
        = [] ∧
    (runResizer rs initialResizerState
        (vs.map ResizerEvent.dragUpdate ++ [ResizerEvent.dragEnd v])).onChangeCalls
        = [reportedPosition rs v] ∧
    (runResizer rs initialResizerState
        (vs.map ResizerEvent.dragUpdate ++ [ResizerEvent.dragEnd v])).dragPosition
        = none ∧
    (runResizer rs initialResizerState
        (vs.map ResizerEvent.dragUpdate ++ [ResizerEvent.dragEnd v])).resetBoundsCalls
        = 1 := by
  have h := runResizer_dragUpdates rs vs initialResizerState
  have h1 : (runResizer rs initialResizerState (vs.map ResizerEvent.dragUpdate)).onChangeCalls = [] := by
    rw [h.1]
    rfl
  have h2 : (runResizer rs initialResizerState (vs.map ResizerEvent.dragUpdate)).resetBoundsCalls = 0 := by
    rw [h.2]
    rfl
  have happ : runResizer rs initialResizerState
      (vs.map ResizerEvent.dragUpdate ++ [ResizerEvent.dragEnd v])
      = stepResizer rs
          (runResizer rs initialResizerState (vs.map ResizerEvent.dragUpdate))
          (ResizerEvent.dragEnd v) := by
    simp [runResizer, List.foldl_append]
  refine ⟨h1, ?_, ?_, ?_⟩ <;> rw [happ] <;> simp [stepResizer, h1, h2]

/-- Claim C6: when a non-empty hidden match set is present, clicking the
match-info control invokes showVertices exactly once, with the hidden set in
array form and nothing else; when the hidden set is absent or empty, clicking
never invokes the callback. -/
theorem C6_showVertices_click (c : Option Nat) (h : List String) (hne : h ≠ []) :
    clickMatchInfo { uiFindCount := c, hiddenUiFindMatches := some h }
        = [arrayFrom h] ∧
    clickMatchInfo { uiFindCount := c, hiddenUiFindMatches := none } = [] ∧
    clickMatchInfo { uiFindCount := c, hiddenUiFindMatches := some [] } = [] := by
  cases h with
  | nil => exact absurd rfl hne
  | cons a t => exact ⟨rfl, rfl, rfl⟩

/-- Claim C6 witness: with the concrete hidden set of the test suite the
click yields exactly one showVertices call carrying that set in array form. -/
theorem C6_showVertices_click_witness :
    (["hidden", "match", "vertices"] : List String) ≠ [] ∧
    (clickMatchInfo { uiFindCount := some 20, hiddenUiFindMatches := some ["hidden", "match", "vertices"] }
        = [arrayFrom ["hidden", "match", "vertices"]] ∧
     clickMatchInfo { uiFindCount := some 20, hiddenUiFindMatches := none } = [] ∧
     clickMatchInfo { uiFindCount := some 20, hiddenUiFindMatches := some [] } = []) :=
  ⟨by decide, C6_showVertices_click (some 20) ["hidden", "match", "vertices"] (by decide)⟩

/-- Claim C7: with a visible count of zero and no hidden matches (the set
absent or empty), the match-info control renders present but disabled,
displaying the count text "0" and no visibility icons. -/
theorem C7_zero_count_rendering :
    renderUiFindInfo { uiFindCount := some 0, hiddenUiFindMatches := none }
        = { present := true, disabled := true, countText := "0", iconCount := 0 } ∧
    renderUiFindInfo { uiFindCount := some 0, hiddenUiFindMatches := some [] }
        = { present := true, disabled := true, countText := "0", iconCount := 0 } := by
  exact ⟨rfl, rfl⟩

/-- Claim C8: mounting the timeline viewer registers the shortcuts by exactly
one merge call carrying the four callbacks, a re-render whose callback props
changed identity triggers exactly one further merge call with the four new
callbacks, and a re-render with identical callbacks triggers none. -/
theorem C8_merge_registration (a b : TimelineCallbacks) (hne : b ≠ a) :
    mergeCallsOnMount a = [a] ∧
    mergeCallsOnUpdate a b = [b] ∧
    mergeCallsOnUpdate a a = [] := by
  refine ⟨rfl, ?_, by simp [mergeCallsOnUpdate]⟩
  simp [mergeCallsOnUpdate, hne]

/-- Claim C8 witness: changing the collapseAll callback identity re-registers
the shortcuts exactly once. -/
theorem C8_merge_registration_witness :
    (⟨9, 1, 2, 3⟩ : TimelineCallbacks) ≠ ⟨0, 1, 2, 3⟩ ∧
    (mergeCallsOnMount ⟨0, 1, 2, 3⟩ = [⟨0, 1, 2, 3⟩] ∧
     mergeCallsOnUpdate ⟨0, 1, 2, 3⟩ ⟨9, 1, 2, 3⟩ = [⟨9, 1, 2, 3⟩] ∧
     mergeCallsOnUpdate ⟨0, 1, 2, 3⟩ ⟨0, 1, 2, 3⟩ = []) :=
  ⟨by decide, C8_merge_registration ⟨0, 1, 2, 3⟩ ⟨9, 1, 2, 3⟩ (by decide)⟩

/-- Claim C9: over any event sequence, the number of drag-manager disposals a
resizer performs equals the number of unmount events: unmounting disposes the
manager exactly once and no other operation disposes it. -/
theorem C9_unmount_disposes_once (rs : Bool) (ops : List ResizerEvent) :
    (runResizer rs initialResizerState ops).disposeCalls
      = List.countP isUnmountEvent ops := by
  have h := runResizer_disposeCalls rs ops initialResizerState
  simpa [initialResizerState] using h

/-- Claim C10: once mounted, for min less than or equal to max the bounds
computation copies width and clientXLeft from the bounding rectangle and
returns the interval [min, max] when rightSide is unset and its exact image
[1 - max, 1 - min] under x maps to 1 - x when rightSide is set; in both cases
minValue is at most maxValue. -/
theorem C10_bounds_interval (p : ResizerProps) (r : Rect) (hle : p.min ≤ p.max) :
    ∃ b : DraggableBounds,
      getDraggingBounds p (some r) = Except.ok b ∧
      b.clientXLeft = r.left ∧
      b.width = r.width ∧
      (p.rightSide = false → b.minValue = p.min ∧ b.maxValue = p.max) ∧
      (p.rightSide = true → b.minValue = 1 - p.max ∧ b.maxValue = 1 - p.min) ∧
      b.minValue ≤ b.maxValue := by
  cases hrs : p.rightSide with
  | false =>
      refine ⟨⟨r.left, r.width, p.min, p.max⟩, ?_, rfl, rfl, ?_, ?_, hle⟩
      · simp [getDraggingBounds, hrs]
      · intro _
        exact ⟨rfl, rfl⟩
      · intro hcontra
        simp [hrs] at hcontra
  | true =>
      have hflip : (1 : ℚ) - p.max ≤ 1 - p.min := by linarith
      refine ⟨⟨r.left, r.width, 1 - p.max, 1 - p.min⟩, ?_, rfl, rfl, ?_, ?_, hflip⟩
      · simp [getDraggingBounds, hrs]
      · intro hcontra
        simp [hrs] at hcontra
      · intro _
        exact ⟨rfl, rfl⟩

/-- Claim C10 witness: with the test-suite configuration (min 0.1, max 0.9,
rightSide set, rectangle left 10 and width 100) the bounds computation
returns the flipped well-ordered interval. -/
theorem C10_bounds_interval_witness :
    ((1 : ℚ)/10 ≤ 9/10) ∧
    ∃ b : DraggableBounds,
      getDraggingBounds ⟨1/10, 9/10, 1/2, true⟩ (some ⟨10, 100⟩) = Except.ok b ∧
      b.clientXLeft = (⟨10, 100⟩ : Rect).left ∧
      b.width = (⟨10, 100⟩ : Rect).width ∧
      ((⟨1/10, 9/10, 1/2, true⟩ : ResizerProps).rightSide = false →
          b.minValue = (⟨1/10, 9/10, 1/2, true⟩ : ResizerProps).min ∧
          b.maxValue = (⟨1/10, 9/10, 1/2, true⟩ : ResizerProps).max) ∧
      ((⟨1/10, 9/10, 1/2, true⟩ : ResizerProps).rightSide = true →
          b.minValue = 1 - (⟨1/10, 9/10, 1/2, true⟩ : ResizerProps).max ∧
          b.maxValue = 1 - (⟨1/10, 9/10, 1/2, true⟩ : ResizerProps).min) ∧
      b.minValue ≤ b.maxValue :=
  ⟨by norm_num, C10_bounds_interval ⟨1/10, 9/10, 1/2, true⟩ ⟨10, 100⟩ (by norm_num)⟩
